import Mathlib

/-
Verification of the Heuristic Relevance Scorer of the affiliate-copywriter-os
repository (backend/services/news_scoring_service.py), as a shallow embedding
in Lean 4.

Modelling conventions:
  * Python `str` is Lean `String`; Python substring test `needle in haystack`
    is `inText` (explicit character-list scan).
  * Python `str.lower()` is `pyLower` (per-character `Char.toLower`; this is
    exact for the ASCII keyword tables used by the scorer).
  * The three fixed regular expressions of the scorer are implemented
    directly as character-list scans (`rePctBonus`, `reDollarBonus`,
    `reCasualtyBonus`, `reAllCaps`), with ASCII `\d`, `\s`, `\w` classes.
  * Python ints are `Int` (scores can be negative before the final clamp).
  * Python dicts (articles) are association lists `PyDict` over a small
    value type `PyVal`; `{**article, "k": v}` is `setKey`.
  * `list.sort(key=..., reverse=True)` is a stable descending sort; it is
    modelled by the stable insertion sort `sortScoreDesc`, whose defining
    properties (permutation, descending, stable) are proved below.
-/

namespace NewsScoring

/-- Character-list test: the first list is an initial segment of the second. -/
def isPrefixCh : List Char → List Char → Bool
  | [], _ => true
  | _ :: _, [] => false
  | a :: as, b :: bs => a == b && isPrefixCh as bs

/-- Substring containment on character lists (semantics of Python `n in h`). -/
def containsSub : List Char → List Char → Bool
  | n, [] => n.isEmpty
  | n, h :: t => isPrefixCh n (h :: t) || containsSub n t

/-- Python `needle in haystack` on strings. -/
def inText (needle haystack : String) : Bool :=
  containsSub needle.data haystack.data

/-- Python `str.lower()`; exact on ASCII, which covers every keyword table. -/
def pyLower (s : String) : String := ⟨s.data.map Char.toLower⟩

/-- Text the tier scans run over: `f"{title} {summary}".lower()`. -/
def pyText (title summary : String) : String :=
  pyLower (title ++ " " ++ summary)

/-- HIGH_VALUE_TRIGGERS table, transcribed verbatim (duplicates included). -/
def HIGH_VALUE_TRIGGERS : List String := [
  "trump", "maga", "biden", "democrats destroy", "republicans destroy",
  "leftist", "right-wing", "woke", "anti-woke", "liberal tears",
  "conservative", "radical", "extremist", "socialist", "fascist",
  "shutdown", "default", "debt ceiling", "government waste",
  "taxpayer money", "big government", "deep state", "corruption",
  "scandal", "cover-up", "exposed", "caught", "busted",
  "investigation", "indicted", "arrested", "charged", "guilty",
  "warning", "alert", "danger", "threat", "risk", "unsafe",
  "deadly", "killed", "dies", "death", "fatal", "victims",
  "crash", "collapse", "crisis", "emergency", "disaster",
  "scam", "fraud", "ripoff", "stealing", "theft", "hacked",
  "skyrocket", "surge", "spike", "soar", "explode", "double", "triple",
  "plunge", "crash", "tank", "collapse", "recession", "depression",
  "can't afford", "unaffordable", "priced out", "struggling",
  "layoffs", "fired", "unemployed", "job cuts", "hiring freeze",
  "outrage", "furious", "angry", "slammed", "blasted", "ripped",
  "destroyed", "obliterated", "humiliated", "embarrassed",
  "caught on camera", "leaked", "secretly", "hidden",
  "you won't believe", "exposed", "the truth about", "exposed",
  "lied", "lying", "lies", "deceived", "betrayed", "backstabbed",
  "breaking", "just in", "urgent", "developing", "happening now",
  "exclusive", "first look", "insider", "leaked"]

/-- MEDIUM_VALUE_TRIGGERS table, transcribed verbatim. -/
def MEDIUM_VALUE_TRIGGERS : List String := [
  "rates rising", "premiums", "insurance cost", "coverage denied",
  "claim rejected", "rate hike", "price increase",
  "mortgage rates", "interest rates", "fed raises", "fed cuts",
  "inflation", "cost of living", "prices",
  "hidden fees", "fine print", "gotcha", "trap", "trick",
  "overcharged", "ripped off", "fighting back",
  "recall", "contaminated", "dangerous", "side effects",
  "cancer", "disease", "outbreak", "virus", "epidemic",
  "hurricane", "tornado", "flood", "wildfire", "earthquake",
  "storm", "devastation", "damage", "destroyed homes",
  "crime", "robbery", "assault", "shooting", "murder",
  "unsafe", "protect yourself", "home invasion"]

/-- LOW_VALUE_TRIGGERS table. -/
def LOW_VALUE_TRIGGERS : List String := [
  "how to", "tips", "guide", "tutorial", "ways to",
  "best", "top", "review", "comparison"]

/-- BORING_INDICATORS table. -/
def BORING_INDICATORS : List String := [
  "megathread", "weekly thread", "daily thread", "discussion thread",
  "question", "advice", "opinion", "thoughts", "help me",
  "should i", "is it worth", "what do you think",
  "eli5", "ama", "rant", "vent", "update",
  "comprehensive list", "resource list", "guide to",
  "beginner", "getting started", "101", "basics",
  "reminder", "psa", "fyi", "til"]

/-- CATEGORIES dict: category id -> keyword list, in source (insertion) order. -/
def CATEGORIES : List (String × List String) := [
  ("politics_drama", ["trump", "biden", "maga", "democrat", "republican",
    "congress", "senate", "shutdown", "scandal", "investigation",
    "indicted", "woke", "liberal", "conservative"]),
  ("money_fears", ["recession", "inflation", "layoffs", "unemployment",
    "crash", "plunge", "can't afford", "skyrocket", "surge", "spike",
    "priced out", "struggling"]),
  ("scams_warnings", ["scam", "fraud", "warning", "alert", "ripoff",
    "hacked", "stolen", "exposed", "caught", "busted", "hidden fees"]),
  ("rates_economy", ["rate", "interest", "fed", "mortgage rate",
    "insurance rate", "premium", "price hike"]),
  ("insurance_news", ["insurance", "coverage", "claim denied", "policy",
    "premium", "deductible"]),
  ("crime_safety", ["crime", "shooting", "murder", "robbery", "assault",
    "arrest", "killed", "death"]),
  ("disasters", ["hurricane", "tornado", "flood", "wildfire", "earthquake",
    "storm", "devastation", "damage"]),
  ("health_scares", ["recall", "cancer", "disease", "outbreak",
    "contaminated", "dangerous", "side effects"]),
  ("outrage", ["outrage", "furious", "slammed", "blasted", "destroyed",
    "lied", "betrayed", "caught on camera"])]

/-- Marquee sub-list appended to `emotional_triggers` on a high-tier match. -/
def marqueeTriggers : List String :=
  ["trump", "maga", "biden", "shutdown", "scandal", "crash", "scam", "warning"]

/-- State threaded through a tier scan: match count, accumulated points,
and emotional triggers collected so far. -/
structure TierState where
  count : Nat
  pts : Int
  emos : List String
deriving Repr, DecidableEq

/-- One loop iteration of a tier scan: on a substring match, bump the count,
add `pv` points while the count is at most 3, and record marquee triggers. -/
def tierStep (pv : Int) (marquee : List String) (text : String)
    (st : TierState) (trigger : String) : TierState :=
  if inText trigger text then
    { count := st.count + 1
      pts := if st.count + 1 ≤ 3 then st.pts + pv else st.pts
      emos := if marquee.contains trigger then st.emos ++ [trigger] else st.emos }
  else st

/-- High-value tier scan: 20 points per match, capped at the first 3 matches. -/
def highScan (text : String) : TierState :=
  HIGH_VALUE_TRIGGERS.foldl (tierStep 20 marqueeTriggers text) ⟨0, 0, []⟩

/-- Medium-value tier scan: 12 points per match, capped at the first 3. -/
def mediumScan (text : String) : TierState :=
  MEDIUM_VALUE_TRIGGERS.foldl (tierStep 12 [] text) ⟨0, 0, []⟩

/-- Low-value tier: uncapped 3 points per matching entry. -/
def lowPoints (text : String) : Int :=
  LOW_VALUE_TRIGGERS.foldl (fun s t => if inText t text then s + 3 else s) 0

/-- Boring-content penalty: -25 per boring indicator found in the title. -/
def boringPenalty (titleLower : String) : Int :=
  BORING_INDICATORS.foldl (fun s t => if inText t titleLower then s - 25 else s) 0

/-- Question-opener check: `title_lower.startswith(("should i", ...))`. -/
def questionPrefixHit (titleLower : String) : Bool :=
  ["should i", "is it", "what do", "how do i", "can i", "would it"].any
    (fun p => isPrefixCh p.data titleLower.data)

/-- First-person marker check over the lowered title. -/
def personalHit (titleLower : String) : Bool :=
  ["my ", "i'm ", "i am ", "i have ", "i just ", "i need "].any
    (fun p => inText p titleLower)

/-- Word list of the percentage-increase regex alternation. -/
def pctWords : List String :=
  ["increase", "rise", "jump", "surge", "spike", "hike"]

/-- Word list of the dollar-loss regex alternation. -/
def dollarWords : List String := ["lost", "stolen", "scam", "fraud"]

/-- Word list of the casualty-count regex alternation. -/
def casualtyWords : List String :=
  ["killed", "dead", "deaths", "victims", "injured"]

/-- Test whether one of the words starts at this position. -/
def anyWordAt (ws : List String) (cs : List Char) : Bool :=
  ws.any (fun w => isPrefixCh w.data cs)

/-- Scan for the regex `\d+%\s*(increase|rise|jump|surge|spike|hike)`:
a digit run directly followed by a percent sign, optional whitespace,
then one of the alternation words. -/
def rePctAux : List Char → Bool
  | [] => false
  | c :: cs =>
    (c.isDigit &&
      (match (c :: cs).dropWhile Char.isDigit with
       | '%' :: r => anyWordAt pctWords (r.dropWhile Char.isWhitespace)
       | _ => false))
    || rePctAux cs

/-- Searches `re.search(r'\d+%\s*(increase|rise|jump|surge|spike|hike)', text)`. -/
def rePctBonus (text : String) : Bool := rePctAux text.data

/-- Scan for the regex `\$[\d,]+\s*(lost|stolen|scam|fraud)`. -/
def reDollarAux : List Char → Bool
  | [] => false
  | c :: cs =>
    (c == '$' &&
      (match cs with
       | d :: _ =>
         (d.isDigit || d == ',') &&
           anyWordAt dollarWords
             ((cs.dropWhile (fun x => x.isDigit || x == ',')).dropWhile
               Char.isWhitespace)
       | [] => false))
    || reDollarAux cs

/-- Searches `re.search(r'\$[\d,]+\s*(lost|stolen|scam|fraud)', text)`. -/
def reDollarBonus (text : String) : Bool := reDollarAux text.data

/-- Scan for the regex `\d+\s*(killed|dead|deaths|victims|injured)`. -/
def reCasualtyAux : List Char → Bool
  | [] => false
  | c :: cs =>
    (c.isDigit &&
      anyWordAt casualtyWords
        (((c :: cs).dropWhile Char.isDigit).dropWhile Char.isWhitespace))
    || reCasualtyAux cs

/-- Searches `re.search(r'\d+\s*(killed|dead|deaths|victims|injured)', text)`. -/
def reCasualtyBonus (text : String) : Bool := reCasualtyAux text.data

/-- Regex word character (ASCII model of `\w`). -/
def isWordChar (c : Char) : Bool := c.isAlphanum || c == '_'

/-- Scan for `\b[A-Z]{4,}\b`: a maximal run of at least four uppercase
letters, bounded on both sides by a non-word character or the string edge.
The flag carries whether the previous character was a word character. -/
def reAllCapsAux : Bool → List Char → Bool
  | _, [] => false
  | prevWord, c :: cs =>
    (!prevWord && c.isUpper &&
      (decide (4 ≤ ((c :: cs).takeWhile Char.isUpper).length) &&
        (match (c :: cs).dropWhile Char.isUpper with
         | [] => true
         | d :: _ => !isWordChar d)))
    || reAllCapsAux (isWordChar c) cs

/-- Searches `re.search(r'\b[A-Z]{4,}\b', title)` on the original title. -/
def reAllCaps (title : String) : Bool := reAllCapsAux false title.data

/-- Detected categories: ids whose keyword list has a substring match in
`text`, in the table's iteration order. -/
def detectCategories (text : String) : List String :=
  (CATEGORIES.filter (fun p => p.2.any (fun kw => inText kw text))).map Prod.fst

/-- High-engagement category subset receiving a +10 bonus each. -/
def highEngagementCats : List String :=
  ["politics_drama", "money_fears", "scams_warnings", "crime_safety", "outrage"]

/-- Per-detected-category engagement bonus accumulation. -/
def engagementBonus (cats : List String) : Int :=
  cats.foldl (fun s c => if highEngagementCats.contains c then s + 10 else s) 0

/-- Final clamp of the score to the interval [0, 100]. -/
def clampScore (x : Int) : Int := max 0 (min 100 x)

/-- Raw (pre-clamp) score: the sum of every tier, penalty and bonus of
`quick_score_article`, in the source's order. -/
def rawScore (title summary : String) : Int :=
  let text := pyText title summary
  let titleLower := pyLower title
  (highScan text).pts + (mediumScan text).pts + lowPoints text
    + boringPenalty titleLower
    + (if questionPrefixHit titleLower then -30 else 0)
    + (if personalHit titleLower then -20 else 0)
    + (if rePctBonus text then 15 else 0)
    + (if reDollarBonus text then 15 else 0)
    + (if reCasualtyBonus text then 20 else 0)
    + (if reAllCaps title then 10 else 0)
    + (if inText "!" title then 5 else 0)
    + engagementBonus (detectCategories text)

/-- Result record of `quick_score_article` (its fixed-key result dict). -/
structure QuickResult where
  score : Int
  categories : List String
  emotional_triggers : List String
  high_value_count : Nat
  is_generic : Bool
deriving Repr, DecidableEq

/-- Embedding of `quick_score_article(title, summary)`. -/
def quickScore (title : String) (summary : String := "") : QuickResult :=
  let text := pyText title summary
  let finalScore := clampScore (rawScore title summary)
  { score := finalScore
    categories := detectCategories text
    emotional_triggers := (highScan text).emos
    high_value_count := (highScan text).count
    is_generic := decide (finalScore < 20) }

/-- Folding a tier scan adds one to the running count for every trigger of
the list that occurs in the text. -/
lemma tier_count_foldl (pv : Int) (mar : List String) (text : String)
    (l : List String) : ∀ st : TierState,
    (l.foldl (tierStep pv mar text) st).count
      = st.count + l.countP (fun t => inText t text) := by
  induction l with
  | nil => intro st; simp
  | cons t ts ih =>
    intro st
    simp only [List.foldl_cons, List.countP_cons, ih]
    unfold tierStep
    by_cases h : inText t text
    · simp only [h, if_true]
      omega
    · simp [h]

/-- Folding a tier scan preserves the cap invariant: the accumulated points
are the per-match value times the count truncated at 3. -/
lemma tier_pts_foldl (pv : Int) (mar : List String) (text : String)
    (l : List String) : ∀ st : TierState,
    st.pts = pv * ((min st.count 3 : Nat) : Int) →
    (l.foldl (tierStep pv mar text) st).pts
      = pv * ((min (l.foldl (tierStep pv mar text) st).count 3 : Nat) : Int) := by
  induction l with
  | nil => intro st h; simpa using h
  | cons t ts ih =>
    intro st h
    simp only [List.foldl_cons]
    apply ih
    unfold tierStep
    by_cases hm : inText t text
    · simp only [hm, if_true]
      by_cases h3 : st.count + 1 ≤ 3
      · have hmin : min (st.count + 1) 3 = min st.count 3 + 1 := by omega
        simp only [h3, if_true, hmin, Nat.cast_add, Nat.cast_one]
        rw [h]; ring
      · have hmin : min (st.count + 1) 3 = min st.count 3 := by omega
        simp only [h3, if_false, hmin]
        exact h
    · simpa [hm] using h

/-- High-tier points always equal 20 times the capped match count. -/
lemma highScan_pts_eq (text : String) :
    (highScan text).pts = 20 * ((min (highScan text).count 3 : Nat) : Int) :=
  tier_pts_foldl 20 marqueeTriggers text HIGH_VALUE_TRIGGERS ⟨0, 0, []⟩ (by simp)

/-- High-tier count is the number of table entries occurring in the text. -/
lemma highScan_count_eq (text : String) :
    (highScan text).count
      = HIGH_VALUE_TRIGGERS.countP (fun t => inText t text) := by
  simpa using
    tier_count_foldl 20 marqueeTriggers text HIGH_VALUE_TRIGGERS ⟨0, 0, []⟩

/-- C1: for every title and summary the scorer returns a score (an `Int` in
the embedding, as in the Python source) with `0 ≤ score ≤ 100`: the final
clamp `max(0, min(100, score))` bounds it whatever signals fired. -/
theorem c1_score_clamped (title summary : String) :
    0 ≤ (quickScore title summary).score
      ∧ (quickScore title summary).score ≤ 100 := by
  have h : (quickScore title summary).score
      = clampScore (rawScore title summary) := rfl
  rw [h]
  unfold clampScore
  exact ⟨le_max_left _ _, max_le (by norm_num) (min_le_left _ _)⟩

/-- C3: high-tier matches beyond the first 3 add no points — the tier's
contribution is always `20 * min(count, 3) ≤ 60` — while every match still
increments `high_value_count` (it equals the full number of matching table
entries); concretely, the text "crash collapse" produces 4 high-value
matches but only 60 points from the tier. -/
theorem c3_high_tier_cap :
    (∀ title summary,
        (quickScore title summary).high_value_count
            = HIGH_VALUE_TRIGGERS.countP
                (fun t => inText t (pyText title summary))
        ∧ (highScan (pyText title summary)).pts
            = 20 * ((min (quickScore title summary).high_value_count 3 : Nat) : Int)
        ∧ (highScan (pyText title summary)).pts ≤ 60)
    ∧ (quickScore "crash collapse" "").high_value_count = 4
    ∧ (highScan (pyText "crash collapse" "")).pts = 60 := by
  refine ⟨fun title summary => ⟨highScan_count_eq _, highScan_pts_eq _, ?_⟩,
    by decide, by decide⟩
  rw [highScan_pts_eq]
  have hm : min (highScan (pyText title summary)).count 3 ≤ 3 :=
    min_le_right _ _
  omega

/-- C6: the `is_generic` flag is precisely "final clamped score below 20". -/
theorem c6_is_generic_iff (title summary : String) :
    (quickScore title summary).is_generic = true
      ↔ (quickScore title summary).score < 20 := by
  have h : (quickScore title summary).is_generic
      = decide ((quickScore title summary).score < 20) := rfl
  rw [h]
  exact decide_eq_true_iff

/-- Title of the question-penalty scenario of the spec (C8). -/
def c8title : String := "Should I switch my auto insurance?"

/-- C8 counterexample: contrary to the claim, scoring this title yields no
medium-tier match at all — the word "insurance" alone is not an entry of
the medium-value table, so no +12 is added. -/
theorem c8_counterexample :
    (mediumScan (pyText c8title "")).count = 0
    ∧ (mediumScan (pyText c8title "")).pts = 0
    ∧ MEDIUM_VALUE_TRIGGERS.contains "insurance" = false := by decide

/-- C8 amended: the question-prefix penalty (-30) fires, together with a
boring-indicator penalty for "should i" (-25) and a first-person penalty
for "my " (-20); no medium-tier trigger matches; the raw total -75 is
clamped to 0 and `is_generic` is true. -/
theorem c8_amended_scenario :
    questionPrefixHit (pyLower c8title) = true
    ∧ boringPenalty (pyLower c8title) = -25
    ∧ personalHit (pyLower c8title) = true
    ∧ (mediumScan (pyText c8title "")).count = 0
    ∧ rawScore c8title "" = -75
    ∧ (quickScore c8title "").score = 0
    ∧ (quickScore c8title "").is_generic = true := by decide

/-- C10: the high-value table contains duplicate entries ("crash",
"collapse", "leaked" twice each, "exposed" three times); a text containing
such a word once is counted once per duplicate entry: for the title
"crash", `high_value_count` is 2, the marquee word "crash" appears twice in
`emotional_triggers`, and the tier contributes 40 points; each duplicate
also counts toward the 3-match cap ("crash collapse" reaches the 60-point
cap with count 4). -/
theorem c10_duplicate_entries :
    HIGH_VALUE_TRIGGERS.count "crash" = 2
    ∧ HIGH_VALUE_TRIGGERS.count "collapse" = 2
    ∧ HIGH_VALUE_TRIGGERS.count "exposed" = 3
    ∧ HIGH_VALUE_TRIGGERS.count "leaked" = 2
    ∧ (quickScore "crash" "").high_value_count = 2
    ∧ (quickScore "crash" "").emotional_triggers = ["crash", "crash"]
    ∧ (highScan (pyText "crash" "")).pts = 40
    ∧ (quickScore "crash collapse" "").high_value_count = 4
    ∧ (highScan (pyText "crash collapse" "")).pts = 60 := by decide

/-- Value type for article-dict fields: the score annotations use strings,
ints, string lists and booleans; extra caller-supplied fields are opaque
values of the same type. -/
inductive PyVal where
  | s : String → PyVal
  | i : Int → PyVal
  | strs : List String → PyVal
  | b : Bool → PyVal
deriving Repr, DecidableEq

/-- A Python dict modelled as an association list (first match wins). -/
abbrev PyDict := List (String × PyVal)

/-- Generic association-list lookup (Python `d[key]` / `key in d`). -/
def lookupA {α : Type} : List (String × α) → String → Option α
  | [], _ => none
  | (k, v) :: rest, key => if k == key then some v else lookupA rest key

/-- Lookup in an article dict. -/
def lookupVal (d : PyDict) (key : String) : Option PyVal := lookupA d key

/-- Python `{**d, key: v}` restricted to one key: overwrite in place when the
key exists, append otherwise. -/
def setKey (d : PyDict) (key : String) (v : PyVal) : PyDict :=
  if d.any (fun p => p.1 == key) then
    d.map (fun p => if p.1 == key then (key, v) else p)
  else d ++ [(key, v)]

/-- Python `d.get(key, "")` where the callers expect a string. -/
def getStrD (d : PyDict) (key : String) : String :=
  match lookupVal d key with
  | some (.s v) => v
  | _ => ""

/-- Python `d.get(key, dflt)` with an arbitrary default. -/
def getValD (d : PyDict) (key : String) (dflt : PyVal) : PyVal :=
  (lookupVal d key).getD dflt

/-- Result dict of `quick_score_article`, with its five fixed keys. -/
def quickScoreDict (title summary : String) : PyDict :=
  let q := quickScore title summary
  [("score", .i q.score),
   ("categories", .strs q.categories),
   ("emotional_triggers", .strs q.emotional_triggers),
   ("high_value_count", .i (q.high_value_count : Int)),
   ("is_generic", .b q.is_generic)]

/-- Embedding of `ai_score_article`: with no AI client configured
(`hasClient = false`, modelling `not (openai_client or anthropic_client)`)
it returns the quick score directly; the client-present branch performs a
network call and is abstracted as an uninterpreted `oracle` (none of the
claims evaluates it). -/
def aiScoreArticle (hasClient : Bool) (oracle : String → String → PyDict)
    (title summary : String) : PyDict :=
  if !hasClient then quickScoreDict title summary else oracle title summary

/-- The five keys `batch_score_articles` adds or overwrites on each item. -/
def annotKeys : List String :=
  ["relevance_score", "categories", "emotional_triggers",
   "hook_potential", "copy_angle"]

/-- Per-item annotation step of `batch_score_articles`: score the title and
summary, then spread the score fields over the original article dict. -/
def annotateArticle (useAi hasClient : Bool)
    (oracle : String → String → PyDict) (article : PyDict) : PyDict :=
  let title := getStrD article "title"
  let summary := getStrD article "summary"
  let sd := if useAi then aiScoreArticle hasClient oracle title summary
            else quickScoreDict title summary
  setKey (setKey (setKey (setKey (setKey article
    "relevance_score" (getValD sd "score" (.i 0)))
    "categories" (getValD sd "categories" (.strs [])))
    "emotional_triggers" (getValD sd "emotional_triggers" (.strs [])))
    "hook_potential" (getValD sd "hook_potential" (.s "")))
    "copy_angle" (getValD sd "copy_angle" (.s ""))

/-- Sort key `x.get("relevance_score", 0)` (an int on every annotated item). -/
def scoreOf (d : PyDict) : Int :=
  match lookupVal d "relevance_score" with
  | some (.i n) => n
  | _ => 0

/-- Insertion step of the stable descending sort: the new element goes in
front of the first element whose score is not larger, so an earlier input
element precedes later ones of equal score. -/
def insScoreDesc (x : PyDict) : List PyDict → List PyDict
  | [] => [x]
  | y :: ys =>
    if scoreOf y ≤ scoreOf x then x :: y :: ys else y :: insScoreDesc x ys

/-- Stable sort by score descending, modelling
`scored.sort(key=lambda x: x.get("relevance_score", 0), reverse=True)`. -/
def sortScoreDesc : List PyDict → List PyDict
  | [] => []
  | x :: xs => insScoreDesc x (sortScoreDesc xs)

/-- Embedding of `batch_score_articles(articles, use_ai)`: annotate every
article, then sort by score descending (stably). -/
def batchScoreArticles (articles : List PyDict) (useAi hasClient : Bool)
    (oracle : String → String → PyDict) : List PyDict :=
  sortScoreDesc (articles.map (annotateArticle useAi hasClient oracle))

/-- Inserting permutes: the result is the element consed on the list. -/
lemma insScoreDesc_perm (x : PyDict) :
    ∀ l : List PyDict, (insScoreDesc x l).Perm (x :: l) := by
  intro l
  induction l with
  | nil => simp [insScoreDesc]
  | cons y ys ih =>
    unfold insScoreDesc
    by_cases hc : scoreOf y ≤ scoreOf x
    · simp [hc]
    · simp only [hc, if_false]
      exact (ih.cons y).trans (List.Perm.swap x y ys)

/-- The sort permutes its input. -/
lemma sortScoreDesc_perm : ∀ l : List PyDict, (sortScoreDesc l).Perm l := by
  intro l
  induction l with
  | nil => simp [sortScoreDesc]
  | cons x xs ih =>
    exact (insScoreDesc_perm x (sortScoreDesc xs)).trans (ih.cons x)

/-- Inserting into a descending list keeps it descending. -/
lemma insScoreDesc_sorted (x : PyDict) :
    ∀ l : List PyDict, l.Pairwise (fun a b => scoreOf b ≤ scoreOf a) →
    (insScoreDesc x l).Pairwise (fun a b => scoreOf b ≤ scoreOf a) := by
  intro l
  induction l with
  | nil => intro _; simp [insScoreDesc]
  | cons y ys ih =>
    intro h
    rw [List.pairwise_cons] at h
    obtain ⟨hy, hys⟩ := h
    unfold insScoreDesc
    by_cases hc : scoreOf y ≤ scoreOf x
    · simp only [hc, if_true]
      rw [List.pairwise_cons]
      refine ⟨?_, ?_⟩
      · intro z hz
        rcases List.mem_cons.mp hz with rfl | hz'
        · exact hc
        · exact le_trans (hy z hz') hc
      · rw [List.pairwise_cons]
        exact ⟨hy, hys⟩
    · simp only [hc, if_false]
      rw [List.pairwise_cons]
      refine ⟨?_, ih hys⟩
      intro z hz
      rcases List.mem_cons.mp ((insScoreDesc_perm x ys).mem_iff.mp hz) with
        rfl | hz'
      · exact le_of_lt (lt_of_not_le hc)
      · exact hy z hz'

/-- The sort output is descending in score. -/
lemma sortScoreDesc_sorted :
    ∀ l : List PyDict,
    (sortScoreDesc l).Pairwise (fun a b => scoreOf b ≤ scoreOf a) := by
  intro l
  induction l with
  | nil => simp [sortScoreDesc]
  | cons x xs ih => exact insScoreDesc_sorted x (sortScoreDesc xs) ih

/-- Stability at the insertion step: restricted to any single score value,
inserting is the same as consing. -/
lemma insScoreDesc_filter (x : PyDict) (v : Int) :
    ∀ l : List PyDict,
    (insScoreDesc x l).filter (fun d => scoreOf d == v)
      = (x :: l).filter (fun d => scoreOf d == v) := by
  intro l
  induction l with
  | nil => rfl
  | cons y ys ih =>
    unfold insScoreDesc
    by_cases hc : scoreOf y ≤ scoreOf x
    · simp [hc]
    · simp only [hc, if_false]
      by_cases hx : scoreOf x = v
      · have hyv : (scoreOf y == v) = false := by
          refine beq_eq_false_iff_ne.mpr ?_
          intro hyv
          exact hc (le_of_eq (hyv.trans hx.symm))
        simp [List.filter_cons, hyv, hx, ih]
      · have hxv : (scoreOf x == v) = false := beq_eq_false_iff_ne.mpr hx
        simp [List.filter_cons, hxv, ih]

/-- Stability of the sort: restricted to any single score value, the output
order is the input order. -/
lemma sortScoreDesc_filter (v : Int) :
    ∀ l : List PyDict,
    (sortScoreDesc l).filter (fun d => scoreOf d == v)
      = l.filter (fun d => scoreOf d == v) := by
  intro l
  induction l with
  | nil => rfl
  | cons x xs ih =>
    calc (insScoreDesc x (sortScoreDesc xs)).filter (fun d => scoreOf d == v)
        = (x :: sortScoreDesc xs).filter (fun d => scoreOf d == v) :=
          insScoreDesc_filter x v (sortScoreDesc xs)
      _ = (x :: xs).filter (fun d => scoreOf d == v) := by
          rw [List.filter_cons, List.filter_cons, ih]

/-- C4: on the deterministic path, `batch_score_articles` returns the
annotated input items sorted by score descending, and within any fixed
score value the output preserves the input order (stable sort). -/
theorem c4_batch_sorted_stable (articles : List PyDict) (hasClient : Bool)
    (oracle : String → String → PyDict) :
    (batchScoreArticles articles false hasClient oracle).Perm
        (articles.map (annotateArticle false hasClient oracle))
    ∧ (batchScoreArticles articles false hasClient oracle).Pairwise
        (fun a b => scoreOf b ≤ scoreOf a)
    ∧ ∀ v : Int,
        (batchScoreArticles articles false hasClient oracle).filter
            (fun d => scoreOf d == v)
          = (articles.map (annotateArticle false hasClient oracle)).filter
              (fun d => scoreOf d == v) :=
  ⟨sortScoreDesc_perm _, sortScoreDesc_sorted _,
    fun v => sortScoreDesc_filter v _⟩

/-- Overwriting one key leaves every other key's lookup unchanged
(map branch of `setKey`). -/
lemma lookupA_map_setKey (k key : String) (v : PyVal) (h : key ≠ k) :
    ∀ d : PyDict,
    lookupVal (d.map (fun p => if p.1 == k then (k, v) else p)) key
      = lookupVal d key := by
  intro d
  induction d with
  | nil => rfl
  | cons p rest ih =>
    obtain ⟨k1, v1⟩ := p
    simp only [List.map_cons]
    by_cases h1 : k1 == k
    · have hk1 : k1 = k := eq_of_beq h1
      have hne : (k == key) = false :=
        beq_eq_false_iff_ne.mpr (fun he => h he.symm)
      have hne1 : (k1 == key) = false := by
        rw [hk1]; exact hne
      simp only [h1, if_true]
      show (if k == key then some v else lookupA _ key)
          = (if k1 == key then some v1 else lookupA rest key)
      rw [hne, hne1]
      exact ih
    · simp only [h1, Bool.false_eq_true, if_false]
      show (if k1 == key then some v1 else lookupA _ key)
          = (if k1 == key then some v1 else lookupA rest key)
      by_cases h2 : k1 == key
      · rw [if_pos h2, if_pos h2]
      · rw [if_neg h2, if_neg h2]
        exact ih

/-- Appending a new key leaves every other key's lookup unchanged. -/
lemma lookupA_append_setKey (k key : String) (v : PyVal) (h : key ≠ k) :
    ∀ d : PyDict, lookupVal (d ++ [(k, v)]) key = lookupVal d key := by
  intro d
  induction d with
  | nil =>
    show (if k == key then some v else none) = none
    rw [if_neg (by simpa using fun he : k = key => h he.symm)]
  | cons p rest ih =>
    obtain ⟨k1, v1⟩ := p
    show (if k1 == key then some v1 else lookupA _ key)
        = (if k1 == key then some v1 else lookupA rest key)
    by_cases h2 : k1 == key
    · rw [if_pos h2, if_pos h2]
    · rw [if_neg h2, if_neg h2]
      exact ih

/-- Setting one key preserves the lookup of every different key. -/
lemma lookupVal_setKey_ne (d : PyDict) (k key : String) (v : PyVal)
    (h : key ≠ k) : lookupVal (setKey d k v) key = lookupVal d key := by
  unfold setKey
  by_cases hex : d.any (fun p => p.1 == k)
  · rw [if_pos hex]
    exact lookupA_map_setKey k key v h d
  · rw [if_neg hex]
    exact lookupA_append_setKey k key v h d

/-- C7: on the deterministic path, every input item's annotated version is
in the batch output, and every key other than the five score-annotation
keys looks up to exactly its original value. -/
theorem c7_extra_fields_preserved (articles : List PyDict) (hasClient : Bool)
    (oracle : String → String → PyDict) (a : PyDict) (ha : a ∈ articles) :
    annotateArticle false hasClient oracle a
        ∈ batchScoreArticles articles false hasClient oracle
    ∧ ∀ key, key ∉ annotKeys →
        lookupVal (annotateArticle false hasClient oracle a) key
          = lookupVal a key := by
  constructor
  · exact (sortScoreDesc_perm _).mem_iff.mpr
      (List.mem_map_of_mem (annotateArticle false hasClient oracle) ha)
  · intro key hk
    have hk' : key ≠ "relevance_score" ∧ key ≠ "categories"
        ∧ key ≠ "emotional_triggers" ∧ key ≠ "hook_potential"
        ∧ key ≠ "copy_angle" := by
      simp only [annotKeys, List.mem_cons, List.not_mem_nil, or_false] at hk
      push_neg at hk
      exact hk
    obtain ⟨h1, h2, h3, h4, h5⟩ := hk'
    unfold annotateArticle
    rw [lookupVal_setKey_ne _ _ _ _ h5, lookupVal_setKey_ne _ _ _ _ h4,
      lookupVal_setKey_ne _ _ _ _ h3, lookupVal_setKey_ne _ _ _ _ h2,
      lookupVal_setKey_ne _ _ _ _ h1]

/-- Concrete article with an extra pass-through field, for the C7 witness. -/
def c7article : PyDict :=
  [("id", .s "a1"), ("title", .s "Breaking news!"), ("url", .s "http://x")]

/-- Witness for C7 at a concrete article carrying extra fields. -/
theorem c7_witness :
    annotateArticle false false (fun _ _ => []) c7article
        ∈ batchScoreArticles [c7article] false false (fun _ _ => [])
    ∧ lookupVal (annotateArticle false false (fun _ _ => []) c7article) "id"
        = some (.s "a1")
    ∧ lookupVal (annotateArticle false false (fun _ _ => []) c7article) "url"
        = some (.s "http://x") := by
  have h := c7_extra_fields_preserved [c7article] false (fun _ _ => [])
    c7article (by simp)
  refine ⟨h.1, ?_, ?_⟩
  · rw [h.2 "id" (by decide)]; rfl
  · rw [h.2 "url" (by decide)]; rfl

/-- C9: with no AI client configured, the `use_ai = True` batch path is the
very same computation as the deterministic path — every item routes to the
heuristic scorer. -/
theorem c9_no_client_same_output (articles : List PyDict)
    (oracle : String → String → PyDict) :
    batchScoreArticles articles true false oracle
      = batchScoreArticles articles false false oracle := rfl

/-
Bucket labels of `group_articles_by_category`. The source file stores these
labels as double-encoded (mojibake) emoji; the exact code points of the
source strings are reproduced here with unicode escapes. The labels are
opaque keys: only their identity across the groups dict, the category map
and the priority list matters, and the source uses the same spelling in all
three places.
-/

/-- Bucket label "Hot Takes" (score 70+). -/
def bKeyHot : String := "\u011F\u0178\u201D\u00A5 Hot Takes"

/-- Bucket label "Political Drama". -/
def bKeyPolitics : String := "\u011F\u0178\u203A\u00EF\u00B8 Political Drama"

/-- Bucket label "Money Fears". -/
def bKeyMoney : String := "\u011F\u0178\u2019\u00B8 Money Fears"

/-- Bucket label "Scams & Warnings". -/
def bKeyScams : String := "\u00E2\u0161\u00A0\u00EF\u00B8 Scams & Warnings"

/-- Bucket label "Outrage". -/
def bKeyOutrage : String := "\u011F\u0178\u02DC\u00A1 Outrage"

/-- Bucket label "Crime & Safety". -/
def bKeyCrime : String := "\u011F\u0178\u201D\u00AA Crime & Safety"

/-- Bucket label "Rates & Economy". -/
def bKeyRates : String := "\u011F\u0178\u201C\u02C6 Rates & Economy"

/-- Bucket label "Insurance News". -/
def bKeyInsurance : String := "\u011F\u0178\u203A\u00A1\u00EF\u00B8 Insurance News"

/-- Bucket label "Disasters". -/
def bKeyDisasters : String := "\u00E2\u203A\u02C6\u00EF\u00B8 Disasters"

/-- Bucket label "Health Scares". -/
def bKeyHealth : String := "\u011F\u0178\u00A5 Health Scares"

/-- Bucket label "Other" (catch-all). -/
def bKeyOther : String := "\u011F\u0178\u201C\u00B0 Other"

/-- The `category_map` dict: category id -> bucket label, insertion order. -/
def category_map : List (String × String) := [
  ("politics_drama", bKeyPolitics),
  ("money_fears", bKeyMoney),
  ("scams_warnings", bKeyScams),
  ("outrage", bKeyOutrage),
  ("crime_safety", bKeyCrime),
  ("rates_economy", bKeyRates),
  ("insurance_news", bKeyInsurance),
  ("disasters", bKeyDisasters),
  ("health_scares", bKeyHealth)]

/-- The fixed `priority_order` list of bucket labels. -/
def priority_order : List String :=
  [bKeyHot, bKeyPolitics, bKeyMoney, bKeyScams, bKeyOutrage, bKeyCrime,
   bKeyRates, bKeyInsurance, bKeyDisasters, bKeyHealth, bKeyOther]

/-- Python `article.get("categories", [])` where callers expect a list. -/
def getStrListD (d : PyDict) (key : String) : List String :=
  match lookupVal d key with
  | some (.strs l) => l
  | _ => []

/-- Inner placement loop `for cat in categories: if cat in category_map:
... break`: the first category, in the item's own list order, that is a key
of `category_map`, mapped to its bucket. -/
def firstMappedBucket : List String → Option String
  | [] => none
  | c :: cs =>
    match lookupA category_map c with
    | some b => some b
    | none => firstMappedBucket cs

/-- The single bucket an article lands in: score 70+ goes to Hot Takes;
otherwise the first own-order mapped category's bucket; otherwise Other
(including the `placed = False` fallthrough). -/
def bucketOf (a : PyDict) : String :=
  if 70 ≤ scoreOf a then bKeyHot
  else
    match getStrListD a "categories" with
    | [] => bKeyOther
    | c :: cs => (firstMappedBucket (c :: cs)).getD bKeyOther

/-- Append an article to one bucket of the groups mapping (the Python
`groups` dict has a fixed key set, so it is modelled by its lookup
function). -/
def addToGroup (g : String → List PyDict) (k : String) (a : PyDict) :
    String → List PyDict :=
  fun k' => if k' == k then g k' ++ [a] else g k'

/-- Loop body of `group_articles_by_category`: place one article. -/
def placeArticle (g : String → List PyDict) (a : PyDict) :
    String → List PyDict :=
  addToGroup g (bucketOf a) a

/-- Embedding of `group_articles_by_category(articles)`: fill the groups,
then emit the non-empty buckets in the fixed priority order. -/
def groupArticles (articles : List PyDict) : List (String × List PyDict) :=
  let g := articles.foldl placeArticle (fun _ => [])
  priority_order.filterMap
    (fun k => if (g k).isEmpty then none else some (k, g k))

/-- Filling the groups appends, to each bucket, exactly the articles the
placement rule sends there, in input order. -/
lemma foldl_place_apply :
    ∀ (l : List PyDict) (g : String → List PyDict) (k : String),
    (l.foldl placeArticle g) k = g k ++ l.filter (fun a => bucketOf a == k) := by
  intro l
  induction l with
  | nil => intro g k; simp
  | cons a as ih =>
    intro g k
    simp only [List.foldl_cons, ih, List.filter_cons]
    unfold placeArticle addToGroup
    by_cases h : bucketOf a = k
    · subst h
      simp
    · have h1 : (bucketOf a == k) = false := beq_eq_false_iff_ne.mpr h
      have h2 : (k == bucketOf a) = false :=
        beq_eq_false_iff_ne.mpr (Ne.symm h)
      simp [h1, h2]

/-- Characterization of the categorizer: it emits, following the fixed
priority order, each non-empty bucket paired with the input articles the
placement rule sends to it, in input order. -/
lemma groupArticles_char (articles : List PyDict) :
    groupArticles articles
      = priority_order.filterMap (fun k =>
          if (articles.filter (fun a => bucketOf a == k)).isEmpty then none
          else some (k, articles.filter (fun a => bucketOf a == k))) := by
  unfold groupArticles
  simp only [foldl_place_apply, List.nil_append]

/-- A value returned by an association-list lookup is among the values. -/
lemma lookupA_mem_values {α : Type} :
    ∀ (l : List (String × α)) (key : String) (v : α),
    lookupA l key = some v → v ∈ l.map Prod.snd := by
  intro l
  induction l with
  | nil => intro key v h; exact absurd h (by simp [lookupA])
  | cons p rest ih =>
    intro key v h
    obtain ⟨k1, v1⟩ := p
    rw [show lookupA ((k1, v1) :: rest) key
        = if k1 == key then some v1 else lookupA rest key from rfl] at h
    by_cases h1 : k1 == key
    · rw [if_pos h1] at h
      obtain rfl : v1 = v := Option.some.inj h
      rw [List.map_cons]
      exact List.mem_cons_self _ _
    · rw [if_neg h1] at h
      exact List.mem_cons_of_mem _ (ih key v h)

/-- The first mapped bucket is always one of the table's bucket labels. -/
lemma firstMappedBucket_mem :
    ∀ (cs : List String) (b : String),
    firstMappedBucket cs = some b → b ∈ category_map.map Prod.snd := by
  intro cs
  induction cs with
  | nil => intro b h; exact absurd h (by simp [firstMappedBucket])
  | cons c rest ih =>
    intro b h
    unfold firstMappedBucket at h
    cases hl : lookupA category_map c with
    | some b1 =>
      rw [hl] at h
      obtain rfl : b1 = b := Option.some.inj h
      exact lookupA_mem_values category_map c _ hl
    | none =>
      rw [hl] at h
      exact ih b h

/-- Every article lands in one of the eleven priority buckets. -/
lemma bucketOf_mem_priority (a : PyDict) : bucketOf a ∈ priority_order := by
  have hsub : ∀ x ∈ category_map.map Prod.snd, x ∈ priority_order := by decide
  unfold bucketOf
  by_cases hs : 70 ≤ scoreOf a
  · rw [if_pos hs]; decide
  · rw [if_neg hs]
    cases hc : getStrListD a "categories" with
    | nil => decide
    | cons c cs =>
      cases hf : firstMappedBucket (c :: cs) with
      | none => simp only [hf, Option.getD_none]; decide
      | some b =>
        simp only [hf, Option.getD_some]
        exact hsub b (firstMappedBucket_mem (c :: cs) b hf)

/-- Keys of a filterMap whose results carry their key form a sublist. -/
lemma filterMap_keys_sublist
    (F : String → Option (String × List PyDict))
    (hF : ∀ k p, F k = some p → p.1 = k) :
    ∀ l : List String, ((l.filterMap F).map Prod.fst).Sublist l := by
  intro l
  induction l with
  | nil => simp
  | cons k ks ih =>
    rw [List.filterMap_cons]
    cases hk : F k with
    | none => exact ih.cons k
    | some p =>
      rw [List.map_cons, hF k p hk]
      exact ih.cons₂ k

/-- Contents of every emitted bucket: the input-order filter of the
articles placed there, and never empty. -/
lemma groupArticles_mem_char (articles : List PyDict) :
    ∀ p ∈ groupArticles articles,
    p.2 = articles.filter (fun a => bucketOf a == p.1) ∧ p.2 ≠ [] := by
  intro p hp
  rw [groupArticles_char] at hp
  obtain ⟨k, hk, hke⟩ := List.mem_filterMap.mp hp
  by_cases he : (articles.filter (fun a => bucketOf a == k)).isEmpty
  · rw [if_pos he] at hke
    exact absurd hke (by simp)
  · rw [if_neg he] at hke
    obtain rfl := Option.some.inj hke
    refine ⟨rfl, ?_⟩
    intro hnil
    have hfe : articles.filter (fun a => bucketOf a == k) = [] := hnil
    rw [hfe] at he
    exact he rfl

/-- Each article of the input appears in the bucket the placement rule
chose for it, and in no other bucket. -/
lemma mem_groupArticles_self (articles : List PyDict) (a : PyDict)
    (ha : a ∈ articles) :
    a ∈ articles.filter (fun x => bucketOf x == bucketOf a)
    ∧ (bucketOf a, articles.filter (fun x => bucketOf x == bucketOf a))
        ∈ groupArticles articles
    ∧ ∀ p ∈ groupArticles articles, a ∈ p.2 → p.1 = bucketOf a := by
  have hmem : a ∈ articles.filter (fun x => bucketOf x == bucketOf a) :=
    List.mem_filter.mpr ⟨ha, by simp⟩
  refine ⟨hmem, ?_, ?_⟩
  · rw [groupArticles_char]
    refine List.mem_filterMap.mpr ⟨bucketOf a, bucketOf_mem_priority a, ?_⟩
    have hne : (articles.filter (fun x => bucketOf x == bucketOf a)).isEmpty
        = false := by
      cases hq : articles.filter (fun x => bucketOf x == bucketOf a) with
      | nil => rw [hq] at hmem; exact absurd hmem (by simp)
      | cons q qs => simp [hq]
    rw [hne]
    simp
  · intro p hp hap
    have hchar := (groupArticles_mem_char articles p hp).1
    rw [hchar] at hap
    have := (List.mem_filter.mp hap).2
    exact (eq_of_beq this).symm

/-- C5: the categorizer equals its filter characterization — hence every
input item appears in exactly one emitted bucket (the one the placement
rule chose), buckets that would be empty are omitted, the emitted labels
are a sublist of the fixed priority order (so appear in that order), and
each bucket lists its items in input order. -/
theorem c5_grouping (articles : List PyDict) :
    groupArticles articles
        = priority_order.filterMap (fun k =>
            if (articles.filter (fun a => bucketOf a == k)).isEmpty then none
            else some (k, articles.filter (fun a => bucketOf a == k)))
    ∧ (∀ p ∈ groupArticles articles,
        p.2 = articles.filter (fun a => bucketOf a == p.1) ∧ p.2 ≠ [])
    ∧ ((groupArticles articles).map Prod.fst).Sublist priority_order
    ∧ ∀ a ∈ articles,
        a ∈ articles.filter (fun x => bucketOf x == bucketOf a)
        ∧ (bucketOf a, articles.filter (fun x => bucketOf x == bucketOf a))
            ∈ groupArticles articles
        ∧ ∀ p ∈ groupArticles articles, a ∈ p.2 → p.1 = bucketOf a := by
  refine ⟨groupArticles_char articles, groupArticles_mem_char articles, ?_,
    fun a ha => mem_groupArticles_self articles a ha⟩
  rw [groupArticles_char]
  refine filterMap_keys_sublist _ ?_ priority_order
  intro k p hk
  by_cases he : (articles.filter (fun a => bucketOf a == k)).isEmpty
  · rw [if_pos he] at hk
    exact absurd hk (by simp)
  · rw [if_neg he] at hk
    obtain rfl := Option.some.inj hk
    rfl

/-- Concrete high-scoring article for the C5 witness. -/
def c5article : PyDict := [("relevance_score", PyVal.i 80)]

/-- Witness for C5 at a concrete input list. -/
theorem c5_witness :
    c5article ∈ [c5article].filter (fun x => bucketOf x == bucketOf c5article)
    ∧ (bucketOf c5article,
        [c5article].filter (fun x => bucketOf x == bucketOf c5article))
          ∈ groupArticles [c5article] := by
  have h := (c5_grouping [c5article]).2.2.2 c5article (by simp)
  exact ⟨h.1, h.2.1⟩

/-- Bucket choice as the spec's words describe it (C2): the first entry of
the fixed category→bucket table, in table order, whose category id the
item's categories list contains. Modelled from the spec's words, for
contrast with the code's `bucketOf`. -/
def tableOrderBucket (cats : List String) : Option String :=
  (category_map.find? (fun p => cats.contains p.1)).map Prod.snd

/-- Concrete item refuting C2: score 10, categories
`["rates_economy", "outrage"]` in the item's own order. -/
def c2item : PyDict :=
  [("relevance_score", PyVal.i 10),
   ("categories", PyVal.strs ["rates_economy", "outrage"])]

/-- C2 counterexample: the code places `c2item` in the Rates & Economy
bucket (the first of the item's OWN categories found in the table), while
the claim's table-order rule would choose Outrage, since "outrage" precedes
"rates_economy" in the fixed table. The two buckets differ. -/
theorem c2_counterexample :
    groupArticles [c2item] = [(bKeyRates, [c2item])]
    ∧ tableOrderBucket ["rates_economy", "outrage"] = some bKeyOutrage
    ∧ bKeyRates ≠ bKeyOutrage := by decide

/-- C2 amended: for an item with score `< 70` and non-empty categories the
bucket is the one mapped from the first category in the ITEM'S OWN list
order that appears in the table (Other when none does), and the item lands
in exactly that bucket of the output. -/
theorem c2_amended_own_order (articles : List PyDict) (a : PyDict)
    (ha : a ∈ articles) (hscore : scoreOf a < 70)
    (hcats : getStrListD a "categories" ≠ []) :
    bucketOf a
        = (firstMappedBucket (getStrListD a "categories")).getD bKeyOther
    ∧ (bucketOf a, articles.filter (fun x => bucketOf x == bucketOf a))
        ∈ groupArticles articles
    ∧ a ∈ articles.filter (fun x => bucketOf x == bucketOf a)
    ∧ ∀ p ∈ groupArticles articles, a ∈ p.2 → p.1 = bucketOf a := by
  have hself := mem_groupArticles_self articles a ha
  refine ⟨?_, hself.2.1, hself.1, hself.2.2⟩
  unfold bucketOf
  rw [if_neg (not_le.mpr hscore)]
  cases hc : getStrListD a "categories" with
  | nil => exact absurd hc hcats
  | cons c cs => rfl

/-- Witness for the amended C2 at the concrete item. -/
theorem c2_amended_witness :
    bucketOf c2item
        = (firstMappedBucket (getStrListD c2item "categories")).getD bKeyOther
    ∧ (bucketOf c2item,
        [c2item].filter (fun x => bucketOf x == bucketOf c2item))
          ∈ groupArticles [c2item] := by
  have h := c2_amended_own_order [c2item] c2item (by simp) (by decide)
    (by decide)
  exact ⟨h.1, h.2.1⟩

end NewsScoring
